import Mathlib

/-!
Shallow embedding of the task-execution engine of the magentic-console
repository, together with theorems settling the specification claims
against it.

Embedded source locations:
* src/orchestrator.ts — tool-result truncation, the Claude and Ollama
  tool-call resolution loops, the Gemini tool loop, the rate-limit retry
  controller, the tool dispatcher branches.
* src/agents/manager-agent.ts — createPlan with its JSON extraction and
  single-step fallback plan.
* src/ui/server.ts — the POST /api/execute step executor: per-step abort
  check, StepExecution records, error classification, persistence points.

Modelling conventions:
* JavaScript strings are Lean `String`s.  Every character appearing in the
  embedded literals lies in the Basic Multilingual Plane, so JavaScript
  `length` / `substring` (UTF-16 units) coincide with Lean character
  counts.  The Polish literals are copied character-for-character from the
  source, including its mojibake (the source files store double-encoded
  UTF-8), using \uXXXX escapes.
* Asynchronous backend calls are modelled as oracles indexed by the call
  number; recursive cross-agent tool dispatch is modelled by oracle
  functions for the nested executions.
* The shared mutable abort flag is modelled as a Boolean-valued function of
  the checkpoint index at which the code reads it.
* Wall-clock timestamps, websocket broadcasts and the file system are
  outside the embedding; persistence calls appear as explicit events.
* JSON string escaping inside JSON.stringify output is elided (no claim
  depends on it).
-/

namespace Magentic

/-- JavaScript values flowing through the tool plumbing: plain strings, the
error objects produced for unknown tools, and opaque structured values
carried together with their JSON.stringify rendering. -/
inductive JsValue where
  | str (s : String)
  | errObj (msg : String)
  | opaqueVal (json : String)
deriving DecidableEq

/-- Literal opening brace character (escaped to keep braces out of string
literals). -/
def openBrace : Char := Char.ofNat 123

/-- Literal closing brace character. -/
def closeBrace : Char := Char.ofNat 125

/-- JSON.stringify of a tool result value (compact form). -/
def jsonStringify : JsValue → String
  | .str s => "\"" ++ s ++ "\""
  | .errObj msg => openBrace.toString ++ "\"error\":\"" ++ msg ++ "\"" ++ closeBrace.toString
  | .opaqueVal json => json

/-- JSON.stringify with two-space indentation, as used when tool results are
rendered into the Ollama feedback message (src/orchestrator.ts:581). -/
def jsonStringifyPretty : JsValue → String
  | .str s => "\"" ++ s ++ "\""
  | .errObj msg => openBrace.toString ++ "\n  \"error\": \"" ++ msg ++ "\"\n" ++ closeBrace.toString
  | .opaqueVal json => json

/-- The string on which `truncateToolResult` operates:
`typeof result === "string" ? result : JSON.stringify(result)`
(src/orchestrator.ts:269). -/
def toolResultString : JsValue → String
  | .str s => s
  | .errObj msg => jsonStringify (.errObj msg)
  | .opaqueVal json => jsonStringify (.opaqueVal json)

/-- The elision suffix appended by `truncateToolResult`
(src/orchestrator.ts:276).  The Polish text is copied
character-for-character from the source, mojibake included. -/
def truncationSuffix (totalLen maxLength : Nat) : String :=
  "\n\n[... skr√≥cono " ++ toString (totalLen - maxLength) ++
    " znak√≥w. Pe≈Çny wynik by≈Ç za d≈Çugi (" ++
    toString totalLen ++
    " znak√≥w). Zadaj bardziej precyzyjne zapytanie aby uzyskaƒá szczeg√≥≈Çy.]"

/-- Truncation of an already stringified result
(src/orchestrator.ts:268-279).  JavaScript `substring(0, n)` is the first
`n` UTF-16 units, i.e. `List.take n` on the character data here. -/
def truncateString (resultStr : String) (maxLength : Nat) : String :=
  if resultStr.length ≤ maxLength then resultStr
  else String.mk (resultStr.data.take maxLength) ++ truncationSuffix resultStr.length maxLength

/-- `truncateToolResult(result, maxLength)` on an arbitrary tool result
value (src/orchestrator.ts:268-279). -/
def truncateToolResult (result : JsValue) (maxLength : Nat) : String :=
  truncateString (toolResultString result) maxLength

/-- A string of `n` copies of the letter a, used as a concrete oversized
tool output in counterexamples. -/
def longString (n : Nat) : String := String.mk (List.replicate n 'a')

/-- Array.prototype.join with a separator, as used for `results.join`
and the Ollama tool-result lines. -/
def joinWith (sep : String) : List String → String
  | [] => ""
  | [x] => x
  | x :: y :: xs => x ++ sep ++ joinWith sep (y :: xs)

/-- A tool call as emitted by a backend adapter: opaque id, tool name and
a JavaScript object of inputs, modelled as a key-value list. -/
structure ToolCall where
  id : String
  name : String
  input : List (String × JsValue)
deriving DecidableEq

/-- A tool result correlated to a tool call (src/types/agent.types.ts:44-48).
The `isError` field is declared optional in the source and is modelled as an
`Option Bool`; `none` is an absent field. -/
structure ToolResult where
  toolCallId : String
  output : JsValue
  isError : Option Bool
deriving DecidableEq

/-- An entry of `currentStepToolCalls`, the per-step tool-call trace the
orchestrator exposes to the server (src/orchestrator.ts:39, 337-342). -/
structure StepToolCallRecord where
  id : String
  name : String
  input : List (String × JsValue)
  result : JsValue
deriving DecidableEq

/-- A backend adapter response (src/types/agent.types.ts): final text
content, the optional raw structured content that must be re-submitted
verbatim, and the list of requested tool calls (an absent or empty list
means the backend is done). -/
structure AgentResponse where
  content : String
  rawContent : Option String
  toolCalls : List ToolCall
deriving DecidableEq

/-- The message thrown for cooperative cancellation
(src/orchestrator.ts:234, 256, ...; matched at src/ui/server.ts:2522). -/
def abortErrorMessage : String := "Execution aborted by user"

/-- The iteration bound of the Claude and Ollama tool-call loops
(src/orchestrator.ts:287, 477). -/
def MAX_TOOL_ITERATIONS : Nat := 20

/-- Error message thrown at the iteration bound of the Claude loop
(src/orchestrator.ts:297). -/
def maxIterationsMessageClaude : String :=
  "Maximum tool call iterations (" ++ toString MAX_TOOL_ITERATIONS ++
    ") exceeded. Task may be too complex or model is stuck in a loop. Try breaking the task into smaller steps."

/-- Error message thrown at the iteration bound of the Ollama loop
(src/orchestrator.ts:488). -/
def maxIterationsMessageOllama : String :=
  "Maximum tool call iterations (" ++ toString MAX_TOOL_ITERATIONS ++
    ") exceeded. Task may be too complex or model is stuck in a loop."

/-- Oracles standing for the executions a tool dispatch can recurse into:
`executeWithGemini`, `executeWithClaude` and the MCP tool client.  The
dispatcher itself is deterministic given these. -/
structure DispatchOracles where
  geminiExec : String → String
  claudeExec : String → String
  mcpExec : String → List (String × JsValue) → JsValue

/-- Reading a string-valued field of a tool-call input object; a missing or
non-string field reads as the empty string. -/
def lookupString (input : List (String × JsValue)) (key : String) : String :=
  match input.lookup key with
  | some (.str s) => s
  | _ => ""

/-- Reading an optional string field of a tool-call input object. -/
def lookupStringOpt (input : List (String × JsValue)) (key : String) : Option String :=
  match input.lookup key with
  | some (.str s) => some s
  | _ => none

/-- The task handed to the nested Gemini execution by `invoke_gemini`:
`context ? task + "\n\nContext: " + context : task`
(src/orchestrator.ts:323-325, 530-532). -/
def geminiFullTask (input : List (String × JsValue)) : String :=
  match lookupStringOpt input ("context") with
  | some c => lookupString input ("task") ++ "\n\nContext: " ++ c
  | none => lookupString input ("task")

/-- JavaScript String.prototype.startsWith on the character model (JS
compares leading UTF-16 units, i.e. leading characters here). -/
def strStartsWith (s pre : String) : Bool :=
  decide (s.data.take pre.data.length = pre.data)

/-- The tool dispatcher branches shared by the Claude and Ollama loops
(src/orchestrator.ts:322-334 and 529-544): cross-agent invocations recurse
into another backend, names with the MCP marker go to the MCP client, and
everything else produces an error value object without throwing. -/
def dispatchCrossAgentTool (oracles : DispatchOracles) (tc : ToolCall) : JsValue :=
  if tc.name = "invoke_gemini" then
    .str (oracles.geminiExec (geminiFullTask tc.input))
  else if tc.name = "invoke_claude" then
    .str (oracles.claudeExec (lookupString tc.input ("task")))
  else if strStartsWith tc.name ("mcp_") then
    oracles.mcpExec tc.name tc.input
  else
    .errObj ("Unknown tool: " ++ tc.name)

/-- The entries pushed onto `currentStepToolCalls` while processing one
round of tool calls (src/orchestrator.ts:336-342, 553-559). -/
def roundTraceRecords (oracles : DispatchOracles) (response : AgentResponse) :
    List StepToolCallRecord :=
  response.toolCalls.map (fun tc =>
    { id := tc.id, name := tc.name, input := tc.input,
      result := dispatchCrossAgentTool oracles tc })

/-- The `toolResults` array built while processing one round of tool calls
(src/orchestrator.ts:344-347, 561-564).  No branch of the dispatcher ever
sets the optional `isError` field, so it is always absent. -/
def roundToolResults (oracles : DispatchOracles) (response : AgentResponse) :
    List ToolResult :=
  response.toolCalls.map (fun tc =>
    { toolCallId := tc.id, output := dispatchCrossAgentTool oracles tc,
      isError := none })

/-- Message content in the conversation history threaded through a loop. -/
inductive MessageContent where
  | text (s : String)
  | raw (s : String)
  | toolResultBlocks (blocks : List (String × String))
deriving DecidableEq

/-- A message of the loop-internal history. -/
structure Message where
  role : String
  content : MessageContent
deriving DecidableEq

/-- The assistant turn appended after a tool round in the Claude loop:
`response.rawContent || response.content` (src/orchestrator.ts:354-357). -/
def claudeAssistantMessage (response : AgentResponse) : Message :=
  { role := "assistant",
    content := match response.rawContent with
      | some r => .raw r
      | none => .text response.content }

/-- The user turn carrying the tool results back to Claude: each block holds
the tool_use_id and the output truncated at the 10000-character ceiling
(src/orchestrator.ts:361-369). -/
def claudeToolResultMessage (toolResults : List ToolResult) : Message :=
  { role := "user",
    content := .toolResultBlocks (toolResults.map (fun tr =>
      (tr.toolCallId, truncateToolResult tr.output 10000))) }

/-- Outcome of one resolution loop: a returned answer or a thrown error. -/
inductive LoopOutcome where
  | ok (content : String)
  | thrown (msg : String)
deriving DecidableEq

/-- Result of a resolution loop: its outcome, the `currentStepToolCalls`
entries it pushed, and the final message history. -/
structure LoopResult where
  outcome : LoopOutcome
  trace : List StepToolCallRecord
  messages : List Message
deriving DecidableEq

/-- The Claude tool-call resolution loop `executeClaudeWithToolHandling`
(src/orchestrator.ts:284-377).  `backend i` is the response of the i-th
backend invocation (already wrapped by the retry controller); `abortedAt i`
is the abort flag as read at the top of the i-th loop entry.  Per the
source, the counter is checked against the bound before each backend call
and incremented only when the response carries tool calls, so loop entry
`i` always runs with `toolCallIterations = i`. -/
def claudeLoopAux (oracles : DispatchOracles) (backend : Nat → AgentResponse)
    (abortedAt : Nat → Bool) (iters : Nat) (messages : List Message)
    (trace : List StepToolCallRecord) : LoopResult :=
  if abortedAt iters then
    { outcome := .thrown abortErrorMessage, trace := trace, messages := messages }
  else if _h : MAX_TOOL_ITERATIONS ≤ iters then
    { outcome := .thrown maxIterationsMessageClaude, trace := trace, messages := messages }
  else
    let response := backend iters
    if response.toolCalls.isEmpty then
      { outcome := .ok response.content, trace := trace, messages := messages }
    else
      claudeLoopAux oracles backend abortedAt (iters + 1)
        (messages ++ [claudeAssistantMessage response,
          claudeToolResultMessage (roundToolResults oracles response)])
        (trace ++ roundTraceRecords oracles response)
termination_by MAX_TOOL_ITERATIONS - iters
decreasing_by simp only [MAX_TOOL_ITERATIONS] at *; omega

/-- Entry point of the Claude loop with the initial user turn
(src/orchestrator.ts:285). -/
def executeClaudeWithToolHandling (oracles : DispatchOracles)
    (backend : Nat → AgentResponse) (abortedAt : Nat → Bool)
    (task : String) : LoopResult :=
  claudeLoopAux oracles backend abortedAt 0 [{ role := "user", content := .text task }] []

/-- The name interpolated for a tool result in the Ollama feedback text:
`response.toolCalls?.find(tc => tc.id === tr.toolCallId)?.name`
(src/orchestrator.ts:581); a failed lookup interpolates as "undefined". -/
def toolNameForId (toolCalls : List ToolCall) (id : String) : String :=
  match toolCalls.find? (fun tc => tc.id = id) with
  | some tc => tc.name
  | none => "undefined"

/-- The `toolResultsText` joined into the Ollama feedback message
(src/orchestrator.ts:580-582): one line per result, embedding the full
JSON.stringify rendering of the output, with no truncation. -/
def ollamaToolResultsText (toolCalls : List ToolCall) (toolResults : List ToolResult) : String :=
  joinWith ("\n\n") (toolResults.map (fun tr =>
    "Tool " ++ tr.toolCallId ++ " (" ++ toolNameForId toolCalls tr.toolCallId ++
      ") result:\n" ++ jsonStringifyPretty tr.output))

/-- The user turn feeding tool results back to Ollama
(src/orchestrator.ts:584-587).  Mojibake copied from the source. -/
def ollamaToolResultsMessage (toolCalls : List ToolCall) (toolResults : List ToolResult) : Message :=
  { role := "user",
    content := .text ("Otrzymano wyniki narzƒôdzi:\n\n" ++
      ollamaToolResultsText toolCalls toolResults ++
      "\n\nPrzeanalizuj wyniki i kontynuuj zadanie.") }

/-- One recorded call of the Ollama per-iteration history
(src/orchestrator.ts:546-551). -/
structure OllamaCallRecord where
  name : String
  input : List (String × JsValue)
  result : JsValue
deriving DecidableEq

/-- One entry of `allToolCallsHistory` (src/orchestrator.ts:567-571). -/
structure OllamaIterationRecord where
  iteration : Nat
  calls : List OllamaCallRecord
deriving DecidableEq

/-- The calls recorded into the Ollama history for one round
(src/orchestrator.ts:521, 546-551). -/
def ollamaIterationCalls (oracles : DispatchOracles) (response : AgentResponse) :
    List OllamaCallRecord :=
  response.toolCalls.map (fun tc =>
    { name := tc.name, input := tc.input,
      result := dispatchCrossAgentTool oracles tc })

/-- JSON.stringify of a tool-call input object with two-space indentation
(nested indentation detail elided; no claim depends on it). -/
def jsonStringifyInput (input : List (String × JsValue)) : String :=
  openBrace.toString ++
    joinWith (",") (input.map (fun f => "\n  \"" ++ f.1 ++ "\": " ++ jsonStringify f.2)) ++
    "\n" ++ closeBrace.toString

/-- The rendering of one executed tool inside the final Ollama response
(src/orchestrator.ts:503-507).  Mojibake copied from the source. -/
def formatOllamaCall (c : OllamaCallRecord) : String :=
  "\nüõ†Ô∏è " ++ c.name ++ "\n" ++
    "Input: " ++ jsonStringifyInput c.input ++ "\n" ++
    "Result: " ++ jsonStringifyPretty c.result ++ "\n"

/-- The rendering of one history iteration inside the final Ollama response
(src/orchestrator.ts:501-508). -/
def formatOllamaIteration (it : OllamaIterationRecord) : String :=
  "\n=== Iteracja " ++ toString it.iteration ++ " - Wykonane narzƒôdzia ===\n" ++
    String.join (it.calls.map formatOllamaCall)

/-- The formatted final response of the Ollama loop when tools were used
(src/orchestrator.ts:499-511). -/
def formatOllamaResponse (history : List OllamaIterationRecord) (finalContent : String) : String :=
  String.join (history.map formatOllamaIteration) ++
    "\n=== Finalna odpowied≈∫ LLM ===\n" ++ finalContent

/-- The Ollama tool-call resolution loop `executeOllamaWithToolHandling`
(src/orchestrator.ts:470-593).  The structure mirrors the Claude loop; the
differences faithful to the source: the assistant turn re-submits
`response.content` (not the raw content), the tool results are fed back as
one plain-text user turn without truncation, and the per-iteration history
is accumulated for the final formatted answer. -/
def ollamaLoopAux (oracles : DispatchOracles) (backend : Nat → AgentResponse)
    (abortedAt : Nat → Bool) (iters : Nat) (messages : List Message)
    (trace : List StepToolCallRecord) (history : List OllamaIterationRecord) : LoopResult :=
  if abortedAt iters then
    { outcome := .thrown abortErrorMessage, trace := trace, messages := messages }
  else if _h : MAX_TOOL_ITERATIONS ≤ iters then
    { outcome := .thrown maxIterationsMessageOllama, trace := trace, messages := messages }
  else
    let response := backend iters
    if response.toolCalls.isEmpty then
      { outcome := .ok (if history.isEmpty then response.content
          else formatOllamaResponse history response.content),
        trace := trace, messages := messages }
    else
      ollamaLoopAux oracles backend abortedAt (iters + 1)
        (messages ++ [{ role := "assistant", content := .text response.content },
          ollamaToolResultsMessage response.toolCalls (roundToolResults oracles response)])
        (trace ++ roundTraceRecords oracles response)
        (history ++ [{ iteration := iters + 1, calls := ollamaIterationCalls oracles response }])
termination_by MAX_TOOL_ITERATIONS - iters
decreasing_by simp only [MAX_TOOL_ITERATIONS] at *; omega

/-- Entry point of the Ollama loop (src/orchestrator.ts:475-478). -/
def executeOllamaWithToolHandling (oracles : DispatchOracles)
    (backend : Nat → AgentResponse) (abortedAt : Nat → Bool)
    (task : String) : LoopResult :=
  ollamaLoopAux oracles backend abortedAt 0 [{ role := "user", content := .text task }] [] []

/-- The Gemini tool dispatcher branches (src/orchestrator.ts:399-412):
web_search goes to the simulated search, summarize returns a stub object,
everything else an error value. -/
def dispatchGeminiTool (tc : ToolCall) : JsValue :=
  if tc.name = "web_search" then
    .opaqueVal ("simulated web search for " ++ lookupString tc.input ("query"))
  else if tc.name = "summarize" then
    .opaqueVal ("Summarization requested")
  else
    .errObj ("Unknown tool: " ++ tc.name)

/-- The body of `executeWithGemini` after its initial abort check
(src/orchestrator.ts:388-431): a `while (response.toolCalls.length > 0)`
loop with NO iteration counter and no bound.  `fuel` is a modelling device
only — it caps how many rounds we unfold; `none` means the loop is still
running after `fuel` rounds.  The dispatched tool results are consumed only
by the next backend call, which is the oracle here (`dispatchGeminiTool`
above models their computation). -/
def geminiLoopAux (backend : Nat → AgentResponse) (fuel i : Nat) : Option String :=
  match fuel with
  | 0 => none
  | fuel' + 1 =>
    let response := backend i
    if response.toolCalls.isEmpty then some response.content
    else geminiLoopAux backend fuel' (i + 1)

/-- `executeWithGemini` (src/orchestrator.ts:382-432): an abort check at
entry, then the unbounded tool loop.  `none` means the loop has not
terminated within `fuel` rounds. -/
def executeWithGemini (backend : Nat → AgentResponse) (aborted : Bool)
    (fuel : Nat) : Option LoopOutcome :=
  if aborted then some (.thrown abortErrorMessage)
  else (geminiLoopAux backend fuel 0).map .ok

/-- Outcome of one raw backend invocation as seen by the retry controller:
success, a rate-limit error carrying `isRateLimit` and a truthy `retryAfter`
(in seconds), or any other error. -/
inductive CallOutcome where
  | success (response : AgentResponse)
  | rateLimit (retryAfter : Nat) (msg : String)
  | failure (msg : String)
deriving DecidableEq

/-- Result of `executeClaudeWithRetry`: the returned response or the thrown
error message, the cumulative seconds slept in backoff waits, and the
`(waitSeconds, attempt, maxRetries)` notifications sent to the observer. -/
structure RetryResult where
  result : Except String AgentResponse
  elapsedSeconds : Nat
  notifications : List (Nat × Nat × Nat)

/-- The fallback error thrown if the retry loop somehow exits with no
recorded error (src/orchestrator.ts:247). -/
def retriesExhaustedFallback : String := "Failed to execute Claude request after retries"

/-- The retry loop of `executeClaudeWithRetry` (src/orchestrator.ts:202-248).
`behavior a` is the outcome of attempt `a` (1-based); `abortedAfterWait a`
is the abort flag as read at the check AFTER the backoff sleep of attempt
`a`.  Faithful to the source: a rate-limit error with `retryAfter = 0` is
falsy in the JavaScript guard and propagates like any other error; the
sleep always runs for the full `retryAfter` seconds, and only then is the
abort flag consulted. -/
def retryLoop (behavior : Nat → CallOutcome) (abortedAfterWait : Nat → Bool)
    (maxRetries : Nat) (attempt : Nat) (elapsed : Nat)
    (notifs : List (Nat × Nat × Nat)) (lastError : Option String) : RetryResult :=
  if _h : maxRetries < attempt then
    { result := .error (lastError.getD retriesExhaustedFallback),
      elapsedSeconds := elapsed, notifications := notifs }
  else
    match behavior attempt with
    | .success r => { result := .ok r, elapsedSeconds := elapsed, notifications := notifs }
    | .rateLimit w m =>
      if w = 0 then
        { result := .error m, elapsedSeconds := elapsed, notifications := notifs }
      else
        if abortedAfterWait attempt then
          { result := .error abortErrorMessage, elapsedSeconds := elapsed + w,
            notifications := notifs ++ [(w, attempt, maxRetries)] }
        else
          retryLoop behavior abortedAfterWait maxRetries (attempt + 1) (elapsed + w)
            (notifs ++ [(w, attempt, maxRetries)]) (some m)
    | .failure m => { result := .error m, elapsedSeconds := elapsed, notifications := notifs }
termination_by maxRetries + 1 - attempt
decreasing_by omega

/-- `executeClaudeWithRetry` with its default budget of 3 attempts
(src/orchestrator.ts:202-248). -/
def executeClaudeWithRetry (behavior : Nat → CallOutcome)
    (abortedAfterWait : Nat → Bool) : RetryResult :=
  retryLoop behavior abortedAfterWait 3 1 0 [] none

/-- A plan step (src/types/agent.types.ts, Plan wire format). -/
structure PlanStep where
  step : Nat
  description : String
  agent : String
  model : Option String
  reasoning : String
  requiredFiles : Option (List String)
deriving DecidableEq

/-- A plan (src/types/agent.types.ts). -/
structure Plan where
  goal : String
  steps : List PlanStep
  estimatedComplexity : String
deriving DecidableEq

/-- Index of the last closing brace of a character list, if any. -/
def lastCloseBraceIdx (cs : List Char) : Option Nat :=
  match cs.reverse.findIdx? (fun c => c = closeBrace) with
  | some k => some (cs.length - 1 - k)
  | none => none

/-- The JSON extraction of `createPlan`
(src/agents/manager-agent.ts:521-524): the greedy regex match spanning
from the first opening brace to the last closing brace after it; no match
means extraction failure. -/
def extractJsonBlock (s : String) : Option String :=
  match s.data.findIdx? (fun c => c = openBrace), lastCloseBraceIdx s.data with
  | some i, some j =>
    if i < j then some (String.mk ((s.data.drop i).take (j - i + 1))) else none
  | _, _ => none

/-- The fallback reasoning string of the single-step fallback plan
(src/agents/manager-agent.ts:550).  Mojibake copied from the source. -/
def fallbackReasoning : String :=
  "Domy≈õlnie u≈ºywam agenta Claude z powodu b≈Çƒôdu parsowania"

/-- The single-step fallback plan returned when plan extraction or parsing
fails (src/agents/manager-agent.ts:542-554). -/
def fallbackPlan (task : String) : Plan :=
  { goal := task,
    steps := [{ step := 1, description := task, agent := "claude", model := none,
                reasoning := fallbackReasoning, requiredFiles := none }],
    estimatedComplexity := "medium" }

/-- The schema note appended to Ollama step descriptions when a compact
Neo4j schema was fetched (src/agents/manager-agent.ts:530-535).  Mojibake
copied from the source. -/
def ollamaSchemaNote (compactSchema : String) : String :=
  "\n\n\uF8FF\u00FC\u00EC\u00E3 SCHEMAT NEO4J:\n" ++ compactSchema ++
    "\n\n\u201A\u00F6\u2020\u00D4\u220F\u00E8 NIE U\u2248\u00AAYWAJ narz\u0192\u00F4dzia \x27get_neo4j_schema\x27 - schemat jest ju\u2248\u00BA powy\u2248\u00BAej! U\u2248\u00BAywaj TYLKO \x27read_neo4j_cypher\x27 lub \x27write_neo4j_cypher\x27."

/-- `ManagerAgent.createPlan` after the planning backend has answered
(src/agents/manager-agent.ts:519-556).  `parse` models `JSON.parse` plus
the TypeScript cast of the extracted block (`none` is a parse failure,
which the source catches); `compactSchema` is the schema fetched earlier
(empty when none).  On extraction or parse failure the fallback plan is
returned and the task never fails. -/
def createPlan (parse : String → Option Plan) (compactSchema : String)
    (task : String) (responseContent : String) : Plan :=
  match extractJsonBlock responseContent with
  | none => fallbackPlan task
  | some block =>
    match parse block with
    | none => fallbackPlan task
    | some plan =>
      if compactSchema = "" then plan
      else { plan with steps := plan.steps.map (fun st =>
        if st.agent = "ollama" then
          { st with description := st.description ++ ollamaSchemaNote compactSchema }
        else st) }

/-- Status of a StepExecution record (src/ui/server.ts StepExecution). -/
inductive StepStatus where
  | executing
  | completed
  | error
  | aborted
deriving DecidableEq

/-- A StepExecution record of the execution session (src/ui/server.ts;
wall-clock startedAt/completedAt timestamps are outside the embedding). -/
structure StepExecution where
  stepNumber : Nat
  agent : String
  model : Option String
  description : String
  query : String
  response : String
  toolCalls : Option (List StepToolCallRecord)
  status : StepStatus
  error : Option String
deriving DecidableEq

/-- Events of the step-executor control flow that the claims inspect:
record creation with status executing, backend invocation, the terminal
status update, and each `saveExecution` persistence call. -/
inductive ExecEvent where
  | recordCreated (stepNumber : Nat)
  | backendInvoked (stepNumber : Nat)
  | terminalStatusSet (stepNumber : Nat) (status : StepStatus)
  | sessionSaved
deriving DecidableEq

/-- What one step's backend execution does, as observed by the server loop:
a returned result string or a thrown error message, in both cases together
with the tool-call trace the orchestrator collected before returning or
throwing (src/ui/server.ts:2505, 2519). -/
inductive StepBehavior where
  | ok (result : String) (toolCalls : List StepToolCallRecord)
  | err (msg : String) (toolCalls : List StepToolCallRecord)
deriving DecidableEq

/-- Outcome of a whole run, as reported by the JSON response of
POST /api/execute: normal completion, an aborted run (both the before-step
check and an abort thrown mid-step), or a halt after a failed step. -/
inductive RunOutcome where
  | completed (finalResult : String)
  | aborted
  | errored (stepNumber : Nat) (msg : String)
deriving DecidableEq

/-- The entries of the per-step context block built from previous results
(src/ui/server.ts:2451-2454).  `plan.steps[i]` is paired with `results[i]`. -/
def contextEntries (steps : List PlanStep) (results : List String) : String :=
  String.join ((steps.zip results).map (fun p =>
    "\nKrok " ++ toString p.1.step ++ " (" ++ p.1.agent ++ "): " ++ p.1.description ++
      "\nWynik: " ++ p.2 ++ "\n"))

/-- The instruction sent to the backend for a step: its description plus,
from the second step on, the delimited context block
(src/ui/server.ts:2446-2456). -/
def stepTaskFor (plan : Plan) (results : List String) (step : PlanStep) : String :=
  if results.isEmpty then step.description
  else step.description ++ "\n\n--- KONTEKST Z POPRZEDNICH KROKÓW ---\n" ++
    contextEntries plan.steps results ++ "--- KONIEC KONTEKSTU ---\n"

/-- The StepExecution record as created on entering a step
(src/ui/server.ts:2421-2430).  Runs without uploaded files are modelled,
so the query is exactly the description (the file-list suffix of the query
is empty then, per src/ui/server.ts:2407-2418). -/
def executingRecord (step : PlanStep) : StepExecution :=
  { stepNumber := step.step, agent := step.agent, model := step.model,
    description := step.description, query := step.description,
    response := "", toolCalls := none, status := .executing, error := none }

/-- The record after a successful step (src/ui/server.ts:2508-2511): an
empty collected trace stores as an absent field. -/
def completedRecord (step : PlanStep) (result : String)
    (toolCalls : List StepToolCallRecord) : StepExecution :=
  { executingRecord step with
      response := result,
      toolCalls := if toolCalls.isEmpty then none else some toolCalls,
      status := .completed }

/-- The terminal-status classification of a thrown error
(src/ui/server.ts:2522): aborted exactly when the message is the
cooperative-cancellation message, error otherwise. -/
def classifyErrorStatus (msg : String) : StepStatus :=
  if msg = abortErrorMessage then .aborted else .error

/-- The record after a step threw (src/ui/server.ts:2522-2525). -/
def failedRecord (step : PlanStep) (msg : String)
    (toolCalls : List StepToolCallRecord) : StepExecution :=
  { executingRecord step with
      status := classifyErrorStatus msg,
      toolCalls := if toolCalls.isEmpty then none else some toolCalls,
      error := some msg }

/-- The event sequence of one executed step (src/ui/server.ts:2420-2602):
the record is created and pushed, the backend is invoked — with NO
persistence in between — then the record is updated exactly once to a
terminal status and the session saved; an abort additionally saves again
after appending the interruption message (src/ui/server.ts:2532-2539). -/
def stepEvents (step : PlanStep) (b : StepBehavior) : List ExecEvent :=
  match b with
  | .ok _ _ =>
    [.recordCreated step.step, .backendInvoked step.step,
      .terminalStatusSet step.step .completed, .sessionSaved]
  | .err msg _ =>
    [.recordCreated step.step, .backendInvoked step.step,
      .terminalStatusSet step.step (classifyErrorStatus msg), .sessionSaved] ++
      (if classifyErrorStatus msg = .aborted then [.sessionSaved] else [])

/-- Result of a run of the step executor: the stepExecutions stored in the
session, the control-flow events, and the reported outcome. -/
structure RunResult where
  stepExecutions : List StepExecution
  events : List ExecEvent
  outcome : RunOutcome
deriving DecidableEq

/-- The per-step loop of POST /api/execute (src/ui/server.ts:2397-2616).
`i` is the 0-based position in `plan.steps`; `behavior i task` is what the
backend dispatch of the (i+1)-th step does when sent `task`; `abortedAt i`
is the abort flag as read by the before-step check of that step.  On a
thrown abort message the run stops with outcome aborted; on any other
thrown error it stops with outcome errored; the trailing save after normal
completion is the save at src/ui/server.ts:2616. -/
def runSteps (plan : Plan) (behavior : Nat → String → StepBehavior)
    (abortedAt : Nat → Bool) : Nat → List PlanStep → List String → RunResult
  | _, [], results =>
    { stepExecutions := [], events := [.sessionSaved],
      outcome := .completed (joinWith ("\n\n") results) }
  | i, step :: rest, results =>
    if abortedAt i then
      { stepExecutions := [], events := [], outcome := .aborted }
    else
      match behavior i (stepTaskFor plan results step) with
      | .ok result tcs =>
        let tail := runSteps plan behavior abortedAt (i + 1) rest (results ++ [result])
        { stepExecutions := completedRecord step result tcs :: tail.stepExecutions,
          events := stepEvents step (.ok result tcs) ++ tail.events,
          outcome := tail.outcome }
      | .err msg tcs =>
        { stepExecutions := [failedRecord step msg tcs],
          events := stepEvents step (.err msg tcs),
          outcome := if msg = abortErrorMessage then .aborted else .errored step.step msg }

/-- The whole step-execution phase of POST /api/execute, starting at the
first plan step with no accumulated results. -/
def executeRun (plan : Plan) (behavior : Nat → String → StepBehavior)
    (abortedAt : Nat → Bool) : RunResult :=
  runSteps plan behavior abortedAt 0 plan.steps []

/-- Recognizer for save events. -/
def isSaveEvent : ExecEvent → Bool
  | .sessionSaved => true
  | _ => false

/-- Recognizer for backend-invocation events. -/
def isInvokeEvent : ExecEvent → Bool
  | .backendInvoked _ => true
  | _ => false

/-- Recognizer for terminal-status-update events. -/
def isTerminalSetEvent : ExecEvent → Bool
  | .terminalStatusSet _ _ => true
  | _ => false

/-- The terminal status a behavior leads to. -/
def terminalStatusOf : StepBehavior → StepStatus
  | .ok _ _ => .completed
  | .err msg _ => classifyErrorStatus msg

/-- Trivial dispatch oracles for concrete runs. -/
def demoOracles : DispatchOracles :=
  { geminiExec := fun _ => "", claudeExec := fun _ => "", mcpExec := fun _ _ => .str "" }

/-- A backend that requests a tool call on every round and never stops. -/
def alwaysToolsBackend : Nat → AgentResponse :=
  fun _ => { content := "looping", rawContent := none,
             toolCalls := [{ id := "g1", name := "web_search", input := [] }] }

/-- A backend that answers immediately without requesting tools. -/
def immediateBackend : Nat → AgentResponse :=
  fun _ => { content := "done", rawContent := none, toolCalls := [] }

/-- A response carrying a single call to an unrecognized tool name. -/
def unknownToolResponse : AgentResponse :=
  { content := "calling a tool", rawContent := none,
    toolCalls := [{ id := "t9", name := "fetch_data", input := [] }] }

/-- A backend that requests one unrecognized tool on its first round and
then answers. -/
def unknownToolBackend : Nat → AgentResponse :=
  fun i => if i = 0 then unknownToolResponse
    else { content := "done", rawContent := none, toolCalls := [] }

/-- A tool call used in the Ollama-feedback counterexample. -/
def demoToolCall : ToolCall := { id := "t1", name := "mcp_query", input := [] }

/-- An oversized tool result used in the Ollama-feedback counterexample. -/
def demoToolResult : ToolResult :=
  { toolCallId := "t1", output := .str (longString 15000), isError := none }

/-- A backend invocation behavior that is rate-limited on every attempt,
asking for a 30 second wait. -/
def rateLimitedBehavior : Nat → CallOutcome :=
  fun _ => .rateLimit 30 ("429 Too Many Requests")

/-- A concrete plan step for closed counterexamples. -/
def demoStep : PlanStep :=
  { step := 1, description := "demo step", agent := "claude", model := none,
    reasoning := "demo", requiredFiles := none }

/-- A second concrete plan step. -/
def demoStep2 : PlanStep :=
  { step := 2, description := "second step", agent := "gemini", model := none,
    reasoning := "demo", requiredFiles := none }

/-- A concrete two-step plan with dense 1-based numbering. -/
def demoPlan2 : Plan :=
  { goal := "demo goal", steps := [demoStep, demoStep2], estimatedComplexity := "low" }

/-- A behavior whose first step succeeds and whose second step throws a
plain error. -/
def okThenErrBehavior : Nat → String → StepBehavior :=
  fun i _ => if i = 0 then .ok ("r1") [] else .err ("boom") []

/-- A behavior whose steps all succeed. -/
def allOkBehavior : Nat → String → StepBehavior :=
  fun _ _ => .ok ("fine") []

/-- An abort-flag trajectory that is set from the check before the second
step onward. -/
def abortFromSecondStep : Nat → Bool :=
  fun i => decide (1 ≤ i)

/-! Helper lemmas about the string model. -/

theorem strLength_mk (l : List Char) : (String.mk l).length = l.length := rfl

theorem strData_append (a b : String) : (a ++ b).data = a.data ++ b.data := by
  cases a
  cases b
  rfl

theorem strLength_append (a b : String) : (a ++ b).length = a.length + b.length := by
  show (a ++ b).data.length = a.data.length + b.data.length
  rw [strData_append, List.length_append]

theorem longString_length (n : Nat) : (longString n).length = n := by
  simp [longString, strLength_mk]

theorem longString_data (n : Nat) : (longString n).data = List.replicate n 'a' := rfl

set_option maxRecDepth 8192 in
theorem truncationSuffix_length_first : (truncationSuffix 15000 10000).length = 138 := by
  decide

set_option maxRecDepth 8192 in
theorem truncationSuffix_length_second : (truncationSuffix 10138 10000).length = 137 := by
  decide

theorem truncateString_of_long (s : String) (m : Nat) (h : ¬ s.length ≤ m) :
    truncateString s m = String.mk (s.data.take m) ++ truncationSuffix s.length m := by
  simp [truncateString, h]

theorem truncateString_length_of_long (s : String) (m : Nat) (h : ¬ s.length ≤ m) :
    (truncateString s m).length = min m s.length + (truncationSuffix s.length m).length := by
  rw [truncateString_of_long s m h, strLength_append, strLength_mk, List.length_take]
  rfl

/-- Claim C5, counterexample: truncation is not idempotent.  Truncating a
15000-character string yields 10000 characters plus a 138-character
suffix; truncating that again re-truncates to the first 10000 characters
and appends a fresh suffix announcing 138 elided characters, producing a
different (one character shorter) string. -/
theorem truncation_not_idempotent_cx :
    truncateToolResult (.str (truncateToolResult (.str (longString 15000)) 10000)) 10000 ≠
      truncateToolResult (.str (longString 15000)) 10000 := by
  have h15 : (longString 15000).length = 15000 := longString_length 15000
  have hlong : ¬ (longString 15000).length ≤ 10000 := by omega
  have hlen1 : (truncateToolResult (.str (longString 15000)) 10000).length = 10138 := by
    show (truncateString (longString 15000) 10000).length = 10138
    rw [truncateString_length_of_long _ _ hlong, h15, truncationSuffix_length_first]
    omega
  have hlong2 : ¬ (truncateToolResult (.str (longString 15000)) 10000).length ≤ 10000 := by
    omega
  have hlen2 :
      (truncateToolResult (.str (truncateToolResult (.str (longString 15000)) 10000)) 10000).length
        = 10137 := by
    show (truncateString (truncateToolResult (.str (longString 15000)) 10000) 10000).length = 10137
    rw [truncateString_length_of_long _ _ hlong2, hlen1, truncationSuffix_length_second]
    omega
  intro heq
  rw [heq] at hlen2
  omega

/-- Claim C5, amended: truncation at the 10000-character ceiling is the
identity on strings that fit the ceiling, and hence idempotent there; for
longer strings double truncation re-truncates past the first truncation
point and replaces the suffix (see the counterexample), so idempotence
holds exactly on the short side. -/
theorem truncation_idempotent_iff_short (s : String) (h : s.length ≤ 10000) :
    truncateToolResult (.str s) 10000 = s ∧
      truncateToolResult (.str (truncateToolResult (.str s) 10000)) 10000 =
        truncateToolResult (.str s) 10000 := by
  have h1 : truncateToolResult (.str s) 10000 = s := by
    simp [truncateToolResult, toolResultString, truncateString, h]
  exact ⟨h1, by rw [h1, h1]⟩

/-- Witness for the amended claim C5 at a concrete short string. -/
theorem truncation_idempotent_iff_short_witness :
    truncateToolResult (.str ("abc")) 10000 = "abc" ∧
      truncateToolResult (.str (truncateToolResult (.str ("abc")) 10000)) 10000 =
        truncateToolResult (.str ("abc")) 10000 :=
  truncation_idempotent_iff_short ("abc") (by decide)

theorem truncated_long_length :
    (truncateToolResult (.str (longString 15000)) 10000).length = 10138 := by
  have hlong : ¬ (longString 15000).length ≤ 10000 := by
    rw [longString_length]; omega
  show (truncateString (longString 15000) 10000).length = 10138
  rw [truncateString_length_of_long _ _ hlong, longString_length, truncationSuffix_length_first]
  omega

/-- Claim C4, amended: in the CLAUDE resolution loop every tool result fed
back to the backend is truncated at the 10000-character ceiling, uniformly
in the tool name and backend response; the suffix states the elided
character count (here a 15000-character output keeps 10000 characters and
the suffix announces 5000 elided).  The Ollama and Gemini loops do not
truncate (see the counterexample). -/
theorem claude_feedback_truncation_uniform :
    (∀ trs : List ToolResult,
      (claudeToolResultMessage trs).content =
        .toolResultBlocks (trs.map (fun tr => (tr.toolCallId, truncateToolResult tr.output 10000)))) ∧
    truncateToolResult (.str (longString 15000)) 10000 =
      String.mk (List.replicate 10000 'a') ++ truncationSuffix 15000 10000 ∧
    truncationSuffix 15000 10000 =
      "\n\n[... skr√≥cono 5000 znak√≥w. Pe≈Çny wynik by≈Ç za d≈Çugi (15000 znak√≥w). Zadaj bardziej precyzyjne zapytanie aby uzyskaƒá szczeg√≥≈Çy.]" := by
  refine ⟨fun trs => rfl, ?_, ?_⟩
  · have hlong : ¬ (longString 15000).length ≤ 10000 := by
      rw [longString_length]; omega
    show truncateString (longString 15000) 10000 = _
    rw [truncateString_of_long _ _ hlong, longString_length, longString_data,
      List.take_replicate]
    norm_num
  · decide

/-- Claim C4, counterexample: the Ollama loop feeds the full 15000-character
tool output back to the backend (the feedback line is 15030 characters
long), not the 10000-character truncation the claim asserts for every
backend. -/
theorem ollama_feedback_not_truncated_cx :
    15000 ≤ (ollamaToolResultsText [demoToolCall] [demoToolResult]).length ∧
    (truncateToolResult demoToolResult.output 10000).length < 15000 ∧
    ollamaToolResultsText [demoToolCall] [demoToolResult] ≠
      "Tool t1 (mcp_query) result:\n" ++ truncateToolResult demoToolResult.output 10000 := by
  have hline : ollamaToolResultsText [demoToolCall] [demoToolResult] =
      "Tool " ++ "t1" ++ " (" ++ "mcp_query" ++ ") result:\n" ++
        ("\"" ++ longString 15000 ++ "\"") := rfl
  have hlen : (ollamaToolResultsText [demoToolCall] [demoToolResult]).length = 15030 := by
    rw [hline]
    simp only [strLength_append, longString_length]
    decide
  have htr : (truncateToolResult demoToolResult.output 10000).length = 10138 :=
    truncated_long_length
  refine ⟨by omega, by omega, ?_⟩
  intro heq
  have hcong := congrArg String.length heq
  rw [hlen, strLength_append, htr] at hcong
  have hsmall : ("Tool t1 (mcp_query) result:\n" : String).length = 28 := by decide
  omega

/-- Claim C6, counterexample: with the abort flag set from the start of a
30-second rate-limit wait, the retry controller still sleeps the full 30
seconds before the cooperative-cancellation condition is raised — the
elapsed sleep time is exactly 30 seconds, not a small bounded delay. -/
theorem backoff_abort_waits_full_sleep_cx :
    (executeClaudeWithRetry rateLimitedBehavior (fun _ => true)).result =
        .error abortErrorMessage ∧
    (executeClaudeWithRetry rateLimitedBehavior (fun _ => true)).elapsedSeconds = 30 ∧
    ¬ (executeClaudeWithRetry rateLimitedBehavior (fun _ => true)).elapsedSeconds < 30 := by
  refine ⟨?_, ?_, ?_⟩ <;>
    simp [executeClaudeWithRetry, retryLoop, rateLimitedBehavior]

/-- Claim C6, amended: an abort observed during a rate-limit backoff wait
does raise the cooperative-cancellation condition and prevents any further
backend attempt, but only after the FULL wait duration has elapsed: the
controller sleeps the whole parsed wait, emits the single observer
notification, and only then consults the abort flag. -/
theorem backoff_abort_after_full_sleep (behavior : Nat → CallOutcome)
    (abortedAfterWait : Nat → Bool) (w : Nat) (m : String)
    (hw : 0 < w) (hb : behavior 1 = .rateLimit w m)
    (ha : abortedAfterWait 1 = true) :
    (executeClaudeWithRetry behavior abortedAfterWait).result = .error abortErrorMessage ∧
    (executeClaudeWithRetry behavior abortedAfterWait).elapsedSeconds = w ∧
    (executeClaudeWithRetry behavior abortedAfterWait).notifications = [(w, 1, 3)] := by
  have h3 : ¬ (3 < 1) := by omega
  have hw0 : ¬ (w = 0) := by omega
  unfold executeClaudeWithRetry
  unfold retryLoop
  rw [hb]
  simp [h3, hw0, ha]

/-- Witness for the amended claim C6 at the concrete 30-second wait. -/
theorem backoff_abort_after_full_sleep_witness :
    (executeClaudeWithRetry rateLimitedBehavior (fun _ => true)).result =
        .error abortErrorMessage ∧
    (executeClaudeWithRetry rateLimitedBehavior (fun _ => true)).elapsedSeconds = 30 ∧
    (executeClaudeWithRetry rateLimitedBehavior (fun _ => true)).notifications = [(30, 1, 3)] :=
  backoff_abort_after_full_sleep rateLimitedBehavior (fun _ => true) 30
    ("429 Too Many Requests") (by omega) rfl rfl

/-- Claim C7, counterexample: in the event sequence of a successfully
executed step there is NO persistence call between the creation of the
executing StepExecution record and the backend invocation — the claimed
save on entering the executing status does not exist. -/
theorem no_save_before_backend_cx :
    ((stepEvents demoStep (.ok ("result") [])).takeWhile
        (fun e => isInvokeEvent e = false)).countP isSaveEvent = 0 := by
  decide

/-- Claim C7, amended: the StepExecution record is created with status
executing and added to the session before the backend is invoked, but the
session is NOT persisted at that point; the record is then updated exactly
once to a terminal status, after which the session is persisted (an abort
saves a second time after appending the interruption message). -/
theorem step_persistence_discipline (step : PlanStep) (b : StepBehavior) :
    (stepEvents step b).take 2 = [.recordCreated step.step, .backendInvoked step.step] ∧
    ((stepEvents step b).takeWhile (fun e => isInvokeEvent e = false)).countP isSaveEvent = 0 ∧
    (stepEvents step b).countP isTerminalSetEvent = 1 ∧
    1 ≤ ((stepEvents step b).dropWhile (fun e => isTerminalSetEvent e = false)).countP
        isSaveEvent := by
  cases b with
  | ok r tcs =>
    refine ⟨rfl, ?_, ?_, ?_⟩ <;>
      simp [stepEvents, isInvokeEvent, isSaveEvent, isTerminalSetEvent, List.takeWhile,
        List.dropWhile, List.countP, List.countP.go]
  | err msg tcs =>
    by_cases h : classifyErrorStatus msg = .aborted <;>
      refine ⟨by simp [stepEvents], ?_, ?_, ?_⟩ <;>
        simp [stepEvents, h, isInvokeEvent, isSaveEvent, isTerminalSetEvent, List.takeWhile,
          List.dropWhile, List.countP, List.countP.go]

/-- Claim C10: a step execution terminated by a thrown error is recorded as
aborted exactly when the thrown message is the literal cooperative-abort
string, and as error otherwise; in particular any failure whose message
happens to equal that string is classified as a user abort.  The last
conjunct ties the classification to the run: a single-step run whose
backend throws stores exactly this record. -/
theorem thrown_error_status_classification (step : PlanStep) (msg : String)
    (tcs : List StepToolCallRecord) (goal cx : String) :
    ((failedRecord step msg tcs).status = .aborted ↔ msg = abortErrorMessage) ∧
    ((failedRecord step msg tcs).status = .aborted ∨
      (failedRecord step msg tcs).status = .error) ∧
    (executeRun { goal := goal, steps := [step], estimatedComplexity := cx }
        (fun _ _ => .err msg tcs) (fun _ => false)).stepExecutions =
      [failedRecord step msg tcs] := by
  refine ⟨?_, ?_, ?_⟩
  · by_cases h : msg = abortErrorMessage <;>
      simp [failedRecord, classifyErrorStatus, h]
  · by_cases h : msg = abortErrorMessage <;>
      simp [failedRecord, classifyErrorStatus, h]
  · simp [executeRun, runSteps]

/-- Claim C8: whenever JSON extraction finds no block or the extracted
block fails to parse, createPlan returns the single-step fallback plan:
one step with description equal to the task, the Claude default backend,
and the fallback reasoning stating that parsing failed. -/
theorem createPlan_fallback_on_parse_failure (parse : String → Option Plan)
    (compactSchema task responseContent : String)
    (h : ∀ block, extractJsonBlock responseContent = some block → parse block = none) :
    createPlan parse compactSchema task responseContent = fallbackPlan task ∧
    fallbackPlan task =
      { goal := task,
        steps := [{ step := 1, description := task, agent := "claude", model := none,
                    reasoning := fallbackReasoning, requiredFiles := none }],
        estimatedComplexity := "medium" } := by
  refine ⟨?_, rfl⟩
  unfold createPlan
  cases hx : extractJsonBlock responseContent with
  | none => rfl
  | some block =>
    have hp := h block hx
    simp [hp]

/-- Witness for claim C8 at a concrete planner reply without any JSON
block. -/
theorem createPlan_fallback_on_parse_failure_witness :
    createPlan (fun _ => none) ("") ("find the data")
        ("Sorry, I cannot produce a plan right now.") =
      fallbackPlan ("find the data") ∧
    fallbackPlan ("find the data") =
      { goal := "find the data",
        steps := [{ step := 1, description := "find the data", agent := "claude", model := none,
                    reasoning := fallbackReasoning, requiredFiles := none }],
        estimatedComplexity := "medium" } :=
  createPlan_fallback_on_parse_failure (fun _ => none) ("") ("find the data")
    ("Sorry, I cannot produce a plan right now.") (fun _ _ => rfl)

/-! Helper lemmas about the Claude and Ollama resolution loops. -/

theorem claudeLoopAux_stops (oracles : DispatchOracles) (backend : Nat → AgentResponse)
    (abortedAt : Nat → Bool) (hab : ∀ i, abortedAt i = false) (k : Nat)
    (hk : k < MAX_TOOL_ITERATIONS) (hstop : (backend k).toolCalls = []) :
    ∀ n i messages trace, i + n = k →
      (∀ j, i ≤ j → j < k → (backend j).toolCalls ≠ []) →
      (claudeLoopAux oracles backend abortedAt i messages trace).outcome =
        .ok (backend k).content := by
  intro n
  induction n with
  | zero =>
    intro i messages trace hik _
    have hik' : i = k := by omega
    subst hik'
    unfold claudeLoopAux
    simp [hab i, Nat.not_le.mpr hk, hstop]
  | succ n ih =>
    intro i messages trace hik hpre
    have hi : i < k := by omega
    have hne := hpre i le_rfl hi
    have hbound : ¬ MAX_TOOL_ITERATIONS ≤ i := by omega
    unfold claudeLoopAux
    cases hc : (backend i).toolCalls with
    | nil => exact absurd hc hne
    | cons a as =>
      simp only [hab i, Bool.false_eq_true, if_false, hbound, dite_false, hc,
        List.isEmpty_cons, if_false, dite_eq_ite]
      exact ih (i + 1) _ _ (by omega) (fun j hj1 hj2 => hpre j (by omega) hj2)

theorem claudeLoopAux_bound (oracles : DispatchOracles) (backend : Nat → AgentResponse)
    (abortedAt : Nat → Bool) (hab : ∀ i, abortedAt i = false)
    (hall : ∀ j, j < MAX_TOOL_ITERATIONS → (backend j).toolCalls ≠ []) :
    ∀ n i messages trace, i + n = MAX_TOOL_ITERATIONS →
      (claudeLoopAux oracles backend abortedAt i messages trace).outcome =
        .thrown maxIterationsMessageClaude := by
  intro n
  induction n with
  | zero =>
    intro i messages trace hik
    have hik' : i = MAX_TOOL_ITERATIONS := by omega
    subst hik'
    unfold claudeLoopAux
    simp [hab]
  | succ n ih =>
    intro i messages trace hik
    have hi : i < MAX_TOOL_ITERATIONS := by omega
    have hne := hall i hi
    have hbound : ¬ MAX_TOOL_ITERATIONS ≤ i := by omega
    unfold claudeLoopAux
    cases hc : (backend i).toolCalls with
    | nil => exact absurd hc hne
    | cons a as =>
      simp only [hab i, Bool.false_eq_true, if_false, hbound, dite_false, hc,
        List.isEmpty_cons, if_false, dite_eq_ite]
      exact ih (i + 1) _ _ (by omega)

theorem ollamaLoopAux_stops (oracles : DispatchOracles) (backend : Nat → AgentResponse)
    (abortedAt : Nat → Bool) (hab : ∀ i, abortedAt i = false) (k : Nat)
    (hk : k < MAX_TOOL_ITERATIONS) (hstop : (backend k).toolCalls = []) :
    ∀ n i messages trace history, i + n = k →
      (∀ j, i ≤ j → j < k → (backend j).toolCalls ≠ []) →
      ∃ c, (ollamaLoopAux oracles backend abortedAt i messages trace history).outcome =
        .ok c := by
  intro n
  induction n with
  | zero =>
    intro i messages trace history hik _
    have hik' : i = k := by omega
    subst hik'
    unfold ollamaLoopAux
    simp [hab i, Nat.not_le.mpr hk, hstop]
  | succ n ih =>
    intro i messages trace history hik hpre
    have hi : i < k := by omega
    have hne := hpre i le_rfl hi
    have hbound : ¬ MAX_TOOL_ITERATIONS ≤ i := by omega
    unfold ollamaLoopAux
    cases hc : (backend i).toolCalls with
    | nil => exact absurd hc hne
    | cons a as =>
      simp only [hab i, Bool.false_eq_true, if_false, hbound, dite_false, hc,
        List.isEmpty_cons, if_false, dite_eq_ite]
      exact ih (i + 1) _ _ _ (by omega) (fun j hj1 hj2 => hpre j (by omega) hj2)

theorem ollamaLoopAux_bound (oracles : DispatchOracles) (backend : Nat → AgentResponse)
    (abortedAt : Nat → Bool) (hab : ∀ i, abortedAt i = false)
    (hall : ∀ j, j < MAX_TOOL_ITERATIONS → (backend j).toolCalls ≠ []) :
    ∀ n i messages trace history, i + n = MAX_TOOL_ITERATIONS →
      (ollamaLoopAux oracles backend abortedAt i messages trace history).outcome =
        .thrown maxIterationsMessageOllama := by
  intro n
  induction n with
  | zero =>
    intro i messages trace history hik
    have hik' : i = MAX_TOOL_ITERATIONS := by omega
    subst hik'
    unfold ollamaLoopAux
    simp [hab]
  | succ n ih =>
    intro i messages trace history hik
    have hi : i < MAX_TOOL_ITERATIONS := by omega
    have hne := hall i hi
    have hbound : ¬ MAX_TOOL_ITERATIONS ≤ i := by omega
    unfold ollamaLoopAux
    cases hc : (backend i).toolCalls with
    | nil => exact absurd hc hne
    | cons a as =>
      simp only [hab i, Bool.false_eq_true, if_false, hbound, dite_false, hc,
        List.isEmpty_cons, if_false, dite_eq_ite]
      exact ih (i + 1) _ _ _ (by omega)

/-- Claim C3, amended: the CLAUDE and OLLAMA resolution loops are bounded:
a backend that stops requesting tools before round 20 terminates the loop
with its text (for Ollama, with a returned answer), and a backend that
keeps requesting tools deterministically fails when the counter reaches
the bound, with a message naming the bound 20.  The GEMINI loop carries no
such bound (see the counterexample). -/
theorem tool_loop_bound_claude_ollama :
    (∀ (oracles : DispatchOracles) (backend : Nat → AgentResponse) (abortedAt : Nat → Bool)
      (task : String) (k : Nat),
      (∀ i, abortedAt i = false) → k < MAX_TOOL_ITERATIONS →
      (∀ j, j < k → (backend j).toolCalls ≠ []) → (backend k).toolCalls = [] →
      (executeClaudeWithToolHandling oracles backend abortedAt task).outcome =
        .ok (backend k).content) ∧
    (∀ (oracles : DispatchOracles) (backend : Nat → AgentResponse) (abortedAt : Nat → Bool)
      (task : String),
      (∀ i, abortedAt i = false) →
      (∀ j, j < MAX_TOOL_ITERATIONS → (backend j).toolCalls ≠ []) →
      (executeClaudeWithToolHandling oracles backend abortedAt task).outcome =
        .thrown maxIterationsMessageClaude) ∧
    (∀ (oracles : DispatchOracles) (backend : Nat → AgentResponse) (abortedAt : Nat → Bool)
      (task : String) (k : Nat),
      (∀ i, abortedAt i = false) → k < MAX_TOOL_ITERATIONS →
      (∀ j, j < k → (backend j).toolCalls ≠ []) → (backend k).toolCalls = [] →
      ∃ c, (executeOllamaWithToolHandling oracles backend abortedAt task).outcome = .ok c) ∧
    (∀ (oracles : DispatchOracles) (backend : Nat → AgentResponse) (abortedAt : Nat → Bool)
      (task : String),
      (∀ i, abortedAt i = false) →
      (∀ j, j < MAX_TOOL_ITERATIONS → (backend j).toolCalls ≠ []) →
      (executeOllamaWithToolHandling oracles backend abortedAt task).outcome =
        .thrown maxIterationsMessageOllama) ∧
    maxIterationsMessageClaude =
      "Maximum tool call iterations (20) exceeded. Task may be too complex or model is stuck in a loop. Try breaking the task into smaller steps." ∧
    maxIterationsMessageOllama =
      "Maximum tool call iterations (20) exceeded. Task may be too complex or model is stuck in a loop." := by
  refine ⟨?_, ?_, ?_, ?_, by decide, by decide⟩
  · intro oracles backend abortedAt task k hab hk hpre hstop
    exact claudeLoopAux_stops oracles backend abortedAt hab k hk hstop k 0 _ _
      (by omega) (fun j hj1 hj2 => hpre j hj2)
  · intro oracles backend abortedAt task hab hall
    exact claudeLoopAux_bound oracles backend abortedAt hab hall MAX_TOOL_ITERATIONS 0 _ _
      (by omega)
  · intro oracles backend abortedAt task k hab hk hpre hstop
    exact ollamaLoopAux_stops oracles backend abortedAt hab k hk hstop k 0 _ _ _
      (by omega) (fun j hj1 hj2 => hpre j hj2)
  · intro oracles backend abortedAt task hab hall
    exact ollamaLoopAux_bound oracles backend abortedAt hab hall MAX_TOOL_ITERATIONS 0 _ _ _
      (by omega)

/-- Witness for the amended claim C3: a backend that answers immediately
terminates the Claude loop with its text, and a backend that always
requests tools is stopped at the bound with the message naming 20. -/
theorem tool_loop_bound_claude_ollama_witness :
    (executeClaudeWithToolHandling demoOracles immediateBackend (fun _ => false)
        ("task")).outcome = .ok ("done") ∧
    (executeClaudeWithToolHandling demoOracles alwaysToolsBackend (fun _ => false)
        ("task")).outcome = .thrown maxIterationsMessageClaude ∧
    (executeOllamaWithToolHandling demoOracles alwaysToolsBackend (fun _ => false)
        ("task")).outcome = .thrown maxIterationsMessageOllama := by
  refine ⟨?_, ?_, ?_⟩
  · exact tool_loop_bound_claude_ollama.1 demoOracles immediateBackend (fun _ => false)
      ("task") 0 (fun _ => rfl) (by decide) (fun j hj => absurd hj (by omega)) rfl
  · exact tool_loop_bound_claude_ollama.2.1 demoOracles alwaysToolsBackend (fun _ => false)
      ("task") (fun _ => rfl) (fun j _ => by simp [alwaysToolsBackend])
  · exact tool_loop_bound_claude_ollama.2.2.2.1 demoOracles alwaysToolsBackend (fun _ => false)
      ("task") (fun _ => rfl) (fun j _ => by simp [alwaysToolsBackend])

/-- Claim C3, counterexample: the GEMINI tool loop has no iteration bound:
driven by a backend that requests a tool on every round, it is still
running after 21 rounds — beyond the claimed 20-round ceiling — and no
MaxIterationsExceeded condition has been raised (the loop has no failure
path at all; its only thrown condition is the pre-loop abort check). -/
theorem gemini_loop_unbounded_cx :
    executeWithGemini alwaysToolsBackend false 21 = none := by
  decide

/-- Claim C9, amended: a tool call whose name is none of the recognized
cross-agent names and does not carry the MCP marker is dispatched to an
unknown-tool ERROR VALUE rather than a thrown error; the call and this
error value are recorded into the step trace and into the round's tool
results — whose optional isError field remains ABSENT (the source never
sets it, so no record carries isError=true) — and a round containing tool
calls always continues to the next round instead of stopping the loop. -/
theorem unknown_tool_error_value_continues (oracles : DispatchOracles)
    (id name : String) (input : List (String × JsValue))
    (h1 : name ≠ "invoke_gemini") (h2 : name ≠ "invoke_claude")
    (h3 : strStartsWith name ("mcp_") = false) :
    dispatchCrossAgentTool oracles { id := id, name := name, input := input } =
        .errObj ("Unknown tool: " ++ name) ∧
    (∀ response : AgentResponse,
      ({ id := id, name := name, input := input } : ToolCall) ∈ response.toolCalls →
      ({ id := id, name := name, input := input,
          result := .errObj ("Unknown tool: " ++ name) } : StepToolCallRecord) ∈
          roundTraceRecords oracles response ∧
      ({ toolCallId := id, output := .errObj ("Unknown tool: " ++ name),
          isError := none } : ToolResult) ∈ roundToolResults oracles response) ∧
    (∀ (backend : Nat → AgentResponse) (abortedAt : Nat → Bool) (i : Nat)
      (messages : List Message) (trace : List StepToolCallRecord),
      abortedAt i = false → i < MAX_TOOL_ITERATIONS → (backend i).toolCalls ≠ [] →
      claudeLoopAux oracles backend abortedAt i messages trace =
        claudeLoopAux oracles backend abortedAt (i + 1)
          (messages ++ [claudeAssistantMessage (backend i),
            claudeToolResultMessage (roundToolResults oracles (backend i))])
          (trace ++ roundTraceRecords oracles (backend i))) := by
  have hd : dispatchCrossAgentTool oracles { id := id, name := name, input := input } =
      .errObj ("Unknown tool: " ++ name) := by
    simp [dispatchCrossAgentTool, h1, h2, h3]
  refine ⟨hd, fun response hmem => ⟨?_, ?_⟩, ?_⟩
  · exact List.mem_map.mpr ⟨{ id := id, name := name, input := input }, hmem, by rw [hd]⟩
  · exact List.mem_map.mpr ⟨{ id := id, name := name, input := input }, hmem, by rw [hd]⟩
  · intro backend abortedAt i messages trace habi hi hne
    have hbound : ¬ MAX_TOOL_ITERATIONS ≤ i := by omega
    conv_lhs => rw [claudeLoopAux]
    cases hc : (backend i).toolCalls with
    | nil => exact absurd hc hne
    | cons a as =>
      simp only [habi, Bool.false_eq_true, if_false, hbound, dite_false, hc,
        List.isEmpty_cons, if_false, dite_eq_ite]

/-- Witness for the amended claim C9 at the concrete unrecognized tool
name fetch_data. -/
theorem unknown_tool_error_value_continues_witness :
    dispatchCrossAgentTool demoOracles { id := "t9", name := "fetch_data", input := [] } =
        .errObj ("Unknown tool: fetch_data") ∧
    (∀ response : AgentResponse,
      ({ id := "t9", name := "fetch_data", input := [] } : ToolCall) ∈ response.toolCalls →
      ({ id := "t9", name := "fetch_data", input := [],
          result := .errObj ("Unknown tool: fetch_data") } : StepToolCallRecord) ∈
          roundTraceRecords demoOracles response ∧
      ({ toolCallId := "t9", output := .errObj ("Unknown tool: fetch_data"),
          isError := none } : ToolResult) ∈ roundToolResults demoOracles response) ∧
    (∀ (backend : Nat → AgentResponse) (abortedAt : Nat → Bool) (i : Nat)
      (messages : List Message) (trace : List StepToolCallRecord),
      abortedAt i = false → i < MAX_TOOL_ITERATIONS → (backend i).toolCalls ≠ [] →
      claudeLoopAux demoOracles backend abortedAt i messages trace =
        claudeLoopAux demoOracles backend abortedAt (i + 1)
          (messages ++ [claudeAssistantMessage (backend i),
            claudeToolResultMessage (roundToolResults demoOracles (backend i))])
          (trace ++ roundTraceRecords demoOracles (backend i))) :=
  unknown_tool_error_value_continues demoOracles ("t9") ("fetch_data") []
    (by decide) (by decide) (by decide)

/-- Claim C9, counterexample: the trace record and tool result produced for
an unrecognized tool carry the error VALUE but the isError field is
absent (none), not true as the claim states. -/
theorem unknown_tool_no_isError_cx :
    roundTraceRecords demoOracles unknownToolResponse =
      [{ id := "t9", name := "fetch_data", input := [],
          result := .errObj ("Unknown tool: fetch_data") }] ∧
    (roundToolResults demoOracles unknownToolResponse).map (fun tr => tr.isError) =
      [none] ∧
    ((roundToolResults demoOracles unknownToolResponse).map (fun tr => tr.isError) =
      [some true] → False) := by
  refine ⟨by decide, by decide, by decide⟩

/-! Helper lemmas for the step-executor runs. -/

theorem runSteps_prefix_err (plan : Plan) (behavior : Nat → String → StepBehavior)
    (abortedAt : Nat → Bool) (msg : String)
    (hab : ∀ i, abortedAt i = false) (hmsg : msg ≠ abortErrorMessage) :
    ∀ (pre : List PlanStep) (failStep : PlanStep) (post : List PlanStep) (i : Nat)
      (results : List String),
      (∀ j, j < pre.length → ∀ task, ∃ r tcs, behavior (i + j) task = .ok r tcs) →
      (∀ task, ∃ tcs, behavior (i + pre.length) task = .err msg tcs) →
      ∃ recs tcs,
        (runSteps plan behavior abortedAt i (pre ++ failStep :: post) results).stepExecutions =
          recs ++ [failedRecord failStep msg tcs] ∧
        recs.map (fun r => r.stepNumber) = pre.map (fun s => s.step) ∧
        (∀ r ∈ recs, r.status = .completed) ∧
        (runSteps plan behavior abortedAt i (pre ++ failStep :: post) results).outcome =
          .errored failStep.step msg := by
  intro pre
  induction pre with
  | nil =>
    intro failStep post i results _ herr
    obtain ⟨tcs, htcs⟩ := herr (stepTaskFor plan results failStep)
    have htcs' : behavior i (stepTaskFor plan results failStep) = .err msg tcs := by
      simpa using htcs
    refine ⟨[], tcs, ?_, rfl, by simp, ?_⟩
    · simp [runSteps, hab i, htcs']
    · simp [runSteps, hab i, htcs', hmsg]
  | cons p pre ih =>
    intro failStep post i results hok herr
    obtain ⟨r, tcs0, h0⟩ := hok 0 (by simp) (stepTaskFor plan results p)
    have h0' : behavior i (stepTaskFor plan results p) = .ok r tcs0 := by simpa using h0
    obtain ⟨recs, tcs, hsx, hmap, hst, hout⟩ := ih failStep post (i + 1) (results ++ [r])
      (fun j hj task => by
        have h := hok (j + 1) (by simpa using Nat.succ_lt_succ hj) task
        rwa [show i + (j + 1) = i + 1 + j by omega] at h)
      (fun task => by
        have h := herr task
        rwa [show i + (p :: pre).length = i + 1 + pre.length by simp [List.length_cons]; omega]
          at h)
    refine ⟨completedRecord p r tcs0 :: recs, tcs, ?_, ?_, ?_, ?_⟩
    · simp [runSteps, hab i, h0', hsx]
    · simp [hmap, completedRecord, executingRecord]
    · intro r' hr'
      rcases List.mem_cons.mp hr' with hre | hmem
      · rw [hre]; rfl
      · exact hst r' hmem
    · simp [runSteps, hab i, h0', hout]

theorem runSteps_prefix_abort (plan : Plan) (behavior : Nat → String → StepBehavior)
    (abortedAt : Nat → Bool) :
    ∀ (pre : List PlanStep) (nextStep : PlanStep) (post : List PlanStep) (i : Nat)
      (results : List String),
      (∀ j, j < pre.length → ∀ task, ∃ r tcs, behavior (i + j) task = .ok r tcs) →
      (∀ j, j < pre.length → abortedAt (i + j) = false) →
      abortedAt (i + pre.length) = true →
      (runSteps plan behavior abortedAt i (pre ++ nextStep :: post) results).stepExecutions.map
          (fun r => r.stepNumber) = pre.map (fun s => s.step) ∧
      (∀ r ∈ (runSteps plan behavior abortedAt i (pre ++ nextStep :: post)
          results).stepExecutions, r.status = .completed) ∧
      (runSteps plan behavior abortedAt i (pre ++ nextStep :: post) results).outcome =
        .aborted := by
  intro pre
  induction pre with
  | nil =>
    intro nextStep post i results _ _ habK
    have habK' : abortedAt i = true := by simpa using habK
    refine ⟨?_, ?_, ?_⟩ <;> simp [runSteps, habK']
  | cons p pre ih =>
    intro nextStep post i results hok habPre habK
    obtain ⟨r, tcs0, h0⟩ := hok 0 (by simp) (stepTaskFor plan results p)
    have h0' : behavior i (stepTaskFor plan results p) = .ok r tcs0 := by simpa using h0
    have habi : abortedAt i = false := by simpa using habPre 0 (by simp)
    obtain ⟨hmap, hst, hout⟩ := ih nextStep post (i + 1) (results ++ [r])
      (fun j hj task => by
        have h := hok (j + 1) (by simpa using Nat.succ_lt_succ hj) task
        rwa [show i + (j + 1) = i + 1 + j by omega] at h)
      (fun j hj => by
        have h := habPre (j + 1) (by simpa using Nat.succ_lt_succ hj)
        rwa [show i + (j + 1) = i + 1 + j by omega] at h)
      (by
        have h := habK
        rwa [show i + (p :: pre).length = i + 1 + pre.length by simp [List.length_cons]; omega]
          at h)
    refine ⟨?_, ?_, ?_⟩
    · simp [runSteps, habi, h0', hmap, completedRecord, executingRecord]
    · intro r' hr'
      simp only [List.cons_append, runSteps, habi, Bool.false_eq_true, if_false, h0'] at hr'
      rcases List.mem_cons.mp hr' with hre | hmem
      · rw [hre]; rfl
      · exact hst r' hmem
    · simp [runSteps, habi, h0', hout]

theorem take_map_step_range (plan : Plan)
    (hdense : ∀ i (h : i < plan.steps.length), (plan.steps.get ⟨i, h⟩).step = i + 1)
    (m : Nat) (hm : m ≤ plan.steps.length) :
    (plan.steps.take m).map (fun s => s.step) = List.range' 1 m := by
  apply List.ext_get
  · simp [List.length_take, List.length_range']
    omega
  · intro i h1 h2
    have hi : i < m := by
      simp [List.length_take] at h1
      omega
    have hilen : i < plan.steps.length := by omega
    have hd := hdense i hilen
    simp only [List.get_eq_getElem] at hd
    simp [List.getElem_map, List.getElem_take, List.getElem_range']
    omega

/-- Claim C1: in a plan with densely numbered steps, when the k-th step is
the first to fail — with a non-cancellation error message — the session
holds exactly the StepExecution records 1..k in order, the k-th record is
terminal with status error and the thrown text captured, all earlier
records are completed, no record for steps k+1..N exists, and the run
outcome is the halted errored outcome for step k (later steps are never
attempted). -/
theorem step_error_halts_run (plan : Plan) (behavior : Nat → String → StepBehavior)
    (abortedAt : Nat → Bool) (k : Nat) (msg : String)
    (hk1 : 1 ≤ k) (hk2 : k ≤ plan.steps.length)
    (hdense : ∀ i (h : i < plan.steps.length), (plan.steps.get ⟨i, h⟩).step = i + 1)
    (hab : ∀ i, abortedAt i = false)
    (hok : ∀ i, i < k - 1 → ∀ task, ∃ r tcs, behavior i task = .ok r tcs)
    (herr : ∀ task, ∃ tcs, behavior (k - 1) task = .err msg tcs)
    (hmsg : msg ≠ abortErrorMessage) :
    (executeRun plan behavior abortedAt).stepExecutions.map (fun r => r.stepNumber) =
        List.range' 1 k ∧
    (∃ last, (executeRun plan behavior abortedAt).stepExecutions.getLast? = some last ∧
      last.stepNumber = k ∧ last.status = .error ∧ last.error = some msg) ∧
    (∀ r ∈ (executeRun plan behavior abortedAt).stepExecutions.dropLast,
      r.status = .completed) ∧
    (executeRun plan behavior abortedAt).outcome = .errored k msg := by
  have hklen : k - 1 < plan.steps.length := by omega
  have hsplit : plan.steps =
      plan.steps.take (k - 1) ++ plan.steps.get ⟨k - 1, hklen⟩ :: plan.steps.drop k := by
    conv_lhs => rw [← List.take_append_drop (k - 1) plan.steps]
    congr 1
    rw [List.drop_eq_get_cons hklen, show k - 1 + 1 = k by omega]
  have hprelen : (plan.steps.take (k - 1)).length = k - 1 := by
    rw [List.length_take]; omega
  obtain ⟨recs, tcs, hsx, hmap, hst, hout⟩ :=
    runSteps_prefix_err plan behavior abortedAt msg hab hmsg
      (plan.steps.take (k - 1)) (plan.steps.get ⟨k - 1, hklen⟩) (plan.steps.drop k) 0 []
      (fun j hj task => by
        have hj' : j < k - 1 := by rwa [hprelen] at hj
        simpa using hok j hj' task)
      (fun task => by
        have h := herr task
        rw [hprelen]
        simpa using h)
  have hrun : executeRun plan behavior abortedAt =
      runSteps plan behavior abortedAt 0
        (plan.steps.take (k - 1) ++ plan.steps.get ⟨k - 1, hklen⟩ :: plan.steps.drop k) [] := by
    rw [executeRun, ← hsplit]
  have hfail : (plan.steps.get ⟨k - 1, hklen⟩).step = k := by
    rw [hdense (k - 1) hklen]; omega
  have hfailsn : (failedRecord (plan.steps.get ⟨k - 1, hklen⟩) msg tcs).stepNumber = k := by
    simpa [failedRecord, executingRecord] using hfail
  have hpremap : (plan.steps.take (k - 1)).map (fun s => s.step) = List.range' 1 (k - 1) :=
    take_map_step_range plan hdense (k - 1) (by omega)
  refine ⟨?_, ?_, ?_, ?_⟩
  · rw [hrun, hsx, List.map_append, hmap, hpremap]
    have : List.range' 1 (k - 1) ++ [1 + 1 * (k - 1)] = List.range' 1 (k - 1 + 1) :=
      (List.range'_concat 1 (k - 1)).symm
    rw [show k - 1 + 1 = k by omega] at this
    rw [show (1 + 1 * (k - 1)) = k by omega] at this
    rw [List.map_singleton, hfailsn]
    exact this
  · refine ⟨failedRecord (plan.steps.get ⟨k - 1, hklen⟩) msg tcs, ?_, hfailsn, ?_, rfl⟩
    · rw [hrun, hsx, List.getLast?_concat]
    · simp [failedRecord, executingRecord, classifyErrorStatus, hmsg]
  · intro r hr
    rw [hrun, hsx, List.dropLast_concat] at hr
    exact hst r hr
  · rw [hrun, hout, hfail]

/-- Witness for claim C1 on a concrete two-step plan whose second step
throws the message boom. -/
theorem step_error_halts_run_witness :
    (executeRun demoPlan2 okThenErrBehavior (fun _ => false)).stepExecutions.map
        (fun r => r.stepNumber) = List.range' 1 2 ∧
    (∃ last, (executeRun demoPlan2 okThenErrBehavior
        (fun _ => false)).stepExecutions.getLast? = some last ∧
      last.stepNumber = 2 ∧ last.status = .error ∧ last.error = some ("boom")) ∧
    (∀ r ∈ (executeRun demoPlan2 okThenErrBehavior (fun _ => false)).stepExecutions.dropLast,
      r.status = .completed) ∧
    (executeRun demoPlan2 okThenErrBehavior (fun _ => false)).outcome =
      .errored 2 ("boom") :=
  step_error_halts_run demoPlan2 okThenErrBehavior (fun _ => false) 2 ("boom")
    (by omega) (by simp [demoPlan2])
    (by
      intro i h
      have h2 : i < 2 := by simpa [demoPlan2] using h
      interval_cases i <;> rfl)
    (fun _ => rfl)
    (by
      intro i hi task
      have h0 : i = 0 := by omega
      subst h0
      exact ⟨"r1", [], rfl⟩)
    (fun task => ⟨[], rfl⟩)
    (by decide)

/-- Claim C2: when the abort flag is observed clear before steps 1..k-1
(which all succeed) and set at the before-step check of step k, the run
stores exactly the completed records 1..k-1, creates no StepExecution for
step k or any later step, and reports the aborted outcome (neither
completed nor errored). -/
theorem abort_before_step_halts_run (plan : Plan) (behavior : Nat → String → StepBehavior)
    (abortedAt : Nat → Bool) (k : Nat)
    (hk1 : 1 ≤ k) (hk2 : k ≤ plan.steps.length)
    (hdense : ∀ i (h : i < plan.steps.length), (plan.steps.get ⟨i, h⟩).step = i + 1)
    (hok : ∀ i, i < k - 1 → ∀ task, ∃ r tcs, behavior i task = .ok r tcs)
    (habPre : ∀ i, i < k - 1 → abortedAt i = false)
    (habK : abortedAt (k - 1) = true) :
    (executeRun plan behavior abortedAt).stepExecutions.map (fun r => r.stepNumber) =
        List.range' 1 (k - 1) ∧
    (∀ r ∈ (executeRun plan behavior abortedAt).stepExecutions, r.stepNumber < k) ∧
    (∀ r ∈ (executeRun plan behavior abortedAt).stepExecutions, r.status = .completed) ∧
    (executeRun plan behavior abortedAt).outcome = .aborted := by
  have hklen : k - 1 < plan.steps.length := by omega
  have hsplit : plan.steps =
      plan.steps.take (k - 1) ++ plan.steps.get ⟨k - 1, hklen⟩ :: plan.steps.drop k := by
    conv_lhs => rw [← List.take_append_drop (k - 1) plan.steps]
    congr 1
    rw [List.drop_eq_get_cons hklen, show k - 1 + 1 = k by omega]
  have hprelen : (plan.steps.take (k - 1)).length = k - 1 := by
    rw [List.length_take]; omega
  obtain ⟨hmap, hst, hout⟩ :=
    runSteps_prefix_abort plan behavior abortedAt
      (plan.steps.take (k - 1)) (plan.steps.get ⟨k - 1, hklen⟩) (plan.steps.drop k) 0 []
      (fun j hj task => by
        have hj' : j < k - 1 := by rwa [hprelen] at hj
        simpa using hok j hj' task)
      (fun j hj => by
        have hj' : j < k - 1 := by rwa [hprelen] at hj
        simpa using habPre j hj')
      (by rw [hprelen]; simpa using habK)
  have hrun : executeRun plan behavior abortedAt =
      runSteps plan behavior abortedAt 0
        (plan.steps.take (k - 1) ++ plan.steps.get ⟨k - 1, hklen⟩ :: plan.steps.drop k) [] := by
    rw [executeRun, ← hsplit]
  have hpremap : (plan.steps.take (k - 1)).map (fun s => s.step) = List.range' 1 (k - 1) :=
    take_map_step_range plan hdense (k - 1) (by omega)
  have hmapfin : (executeRun plan behavior abortedAt).stepExecutions.map
      (fun r => r.stepNumber) = List.range' 1 (k - 1) := by
    rw [hrun, hmap, hpremap]
  refine ⟨hmapfin, ?_, ?_, ?_⟩
  · intro r hr
    have hmem : r.stepNumber ∈ List.range' 1 (k - 1) := by
      rw [← hmapfin]
      exact List.mem_map.mpr ⟨r, hr, rfl⟩
    have := List.mem_range'.mp hmem
    omega
  · intro r hr
    rw [hrun] at hr
    exact hst r hr
  · rw [hrun, hout]

/-- Witness for claim C2 on the concrete two-step plan with the abort flag
set from the check before the second step. -/
theorem abort_before_step_halts_run_witness :
    (executeRun demoPlan2 allOkBehavior abortFromSecondStep).stepExecutions.map
        (fun r => r.stepNumber) = List.range' 1 1 ∧
    (∀ r ∈ (executeRun demoPlan2 allOkBehavior abortFromSecondStep).stepExecutions,
      r.stepNumber < 2) ∧
    (∀ r ∈ (executeRun demoPlan2 allOkBehavior abortFromSecondStep).stepExecutions,
      r.status = .completed) ∧
    (executeRun demoPlan2 allOkBehavior abortFromSecondStep).outcome = .aborted :=
  abort_before_step_halts_run demoPlan2 allOkBehavior abortFromSecondStep 2
    (by omega) (by simp [demoPlan2])
    (by
      intro i h
      have h2 : i < 2 := by simpa [demoPlan2] using h
      interval_cases i <;> rfl)
    (by
      intro i hi task
      have h0 : i = 0 := by omega
      subst h0
      exact ⟨"fine", [], rfl⟩)
    (by
      intro i hi
      have h0 : i = 0 := by omega
      subst h0
      rfl)
    rfl

end Magentic
